import Mathlib

/-!
# Verification of the MovR loader / workload simulator core (`loadmovr.py`)

Shallow embedding of the partitioned concurrent execution engine of
`loadmovr.py`: the Partition Mapper (`extract_partition_pairs_from_cli`),
the Load Distributor (`run_data_loader`), the Bulk Loader
(`load_movr_data` / `add_users` / `add_vehicles` / `add_rides`), the
Workload Simulator's operation selection and active-ride pool
(`simulate_movr_load`), and the Shutdown Coordinator (`signal_handler`).

Modelling conventions:
* strings are `List Char`; Python dictionaries (insertion ordered) are
  association lists;
* the global stop flag `TERMINATE_GRACEFULLY`, which another thread (the
  signal handler) may set at any moment, is modelled as a boolean-valued
  function of the observing worker's own progress (the number of chunk
  transactions it has executed so far); quantifying over all monotone
  such functions covers every interleaving of the flag being set;
* `random.random()` draws are explicit rational arguments in `[0, 1)`;
* storage-side effects (committed chunk transactions, rides marked
  ended) are recorded in explicit lists rather than performed.
-/

namespace Movr

/-- City / partition names, modelled as character lists (Python `str`). -/
abbrev Str := List Char

/-! ## Partition Mapper — `extract_partition_pairs_from_cli` -/

/--
Python `s.split(":")` on a character list: always returns at least one
(possibly empty) segment; a separator char ends the current segment.
-/
def splitOnColon : Str → List Str
  | [] => [[]]
  | c :: rest =>
    if c = ':' then [] :: splitOnColon rest
    else
      match splitOnColon rest with
      | [] => [[c]]
      | p :: ps => (c :: p) :: ps

/-- Python `":".join(segs)`. -/
def joinColon : List Str → Str
  | [] => []
  | [s] => s
  | s :: rest => s ++ ':' :: joinColon rest

/-- The error taxonomy the spec names `ConfigError` (plus the warm-up
`sys.exit(1)` on an empty registry, and the crash Python would raise in
the Partition Mapper's fallback branch: `["default"].append(...)`
evaluates to `None`, so the later subscript raises `TypeError`). -/
inductive ConfigError
  | invalidCounts
  | invalidReadPercentage
  | brokenFallback
  | emptyRegistry (city : Str)
  deriving Repr, DecidableEq

/-- `DEFAULT_PARTITION_MAP` from the source, as an insertion-ordered
association list (Python dict). -/
def DEFAULT_PARTITION_MAP : List (Str × List Str) :=
  [ ("us_east".toList, ["new york".toList, "boston".toList, "washington dc".toList]),
    ("us_west".toList, ["san francisco".toList, "seattle".toList, "los angeles".toList]),
    ("eu_west".toList, ["amsterdam".toList, "paris".toList, "rome".toList]) ]

/-- Insert a city under a partition key: append to the existing key's
city list when the key is present (`if pair[0] in partition_pairs`),
otherwise add a new key at the end (dict insertion order). -/
def insertPair (m : List (Str × List Str)) (k : Str) (v : Str) : List (Str × List Str) :=
  match m with
  | [] => [(k, [v])]
  | (k0, vs) :: rest =>
    if k0 = k then (k0, vs ++ [v]) :: rest
    else (k0, vs) :: insertPair rest k v

/-- The entry loop of `extract_partition_pairs_from_cli`: split each
entry on `":"`; the source's `len(pair) < 1` guard selects a fallback
that would crash (modelled as `ConfigError.brokenFallback`), and the
main branch rebuilds the pair as `[pair[0], ":".join(pair[1:])]`. -/
def processEntries : List Str → List (Str × List Str) →
    Except ConfigError (List (Str × List Str))
  | [], m => .ok m
  | e :: rest, m =>
    if (splitOnColon e).length < 1 then
      .error ConfigError.brokenFallback
    else
      processEntries rest
        (insertPair m (splitOnColon e).headI (joinColon (splitOnColon e).tail))

/-- The same loop with the (provably dead) fallback guard removed; used
to state results without an existential over the returned map. -/
def mapperFold : List Str → List (Str × List Str) → List (Str × List Str)
  | [], m => m
  | e :: rest, m =>
    mapperFold rest
      (insertPair m (splitOnColon e).headI (joinColon (splitOnColon e).tail))

/-- `extract_partition_pairs_from_cli(pair_list)`: `None` input returns
`DEFAULT_PARTITION_MAP`; otherwise the entries are folded into a fresh
dict. -/
def extract_partition_pairs_from_cli :
    Option (List Str) → Except ConfigError (List (Str × List Str))
  | none => .ok DEFAULT_PARTITION_MAP
  | some entries => processEntries entries []

/-- Spec-side description: the text before the first colon of an entry
(the partition name). -/
def partOf (e : Str) : Str := e.takeWhile (fun c => c ≠ ':')

/-- Spec-side description: the text after the first colon of an entry
(the city, any further colons preserved). -/
def cityOf (e : Str) : Str := (e.dropWhile (fun c => c ≠ ':')).tail

/-- The ordered city list stored under partition `p` (empty when `p` is
absent). -/
def citiesOf (m : List (Str × List Str)) (p : Str) : List Str :=
  match m.find? (fun q => decide (q.1 = p)) with
  | some q => q.2
  | none => []

/-- Total number of cities over all partitions of the map. -/
def totalCities (m : List (Str × List Str)) : ℕ :=
  (m.map (fun q => q.2.length)).sum

/-! ## Load Distributor — `run_data_loader` -/

/-- `int(math.ceil(float(a) / b))` for the sizes that occur here (the
float division is exact at these magnitudes). -/
def ceilDiv (a b : ℕ) : ℕ := (a + b - 1) / b

/-- The thread-spawning loop of `run_data_loader`: `usableThreads`
iterations; each iteration with cities remaining takes the next
`citiesPerThread` cities as one worker's group
(`cities_to_load[:cities_per_thread]` / `cities_to_load[cities_per_thread:]`). -/
def threadGroups (cities : List Str) (citiesPerThread : ℕ) : ℕ → List (List Str)
  | 0 => []
  | n + 1 =>
    if 0 < cities.length then
      cities.take citiesPerThread ::
        threadGroups (cities.drop citiesPerThread) citiesPerThread n
    else
      threadGroups cities citiesPerThread n

/--
`run_data_loader`: validates the requested counts
(`num_users <= 0 or num_rides <= 0 or num_vehicles <= 0` raises before
anything else happens), computes
`usable_threads = min(num_threads, len(all_cities))` and
`cities_per_thread = ceil(len(all_cities) / usable_threads)`, and starts
one worker thread per contiguous city group.  The returned value is the
list of per-thread city groups, in spawn order.
-/
def run_data_loader (allCities : List Str) (numUsers numRides numVehicles : ℤ)
    (numThreads : ℕ) : Except ConfigError (List (List Str)) :=
  if numUsers ≤ 0 ∨ numRides ≤ 0 ∨ numVehicles ≤ 0 then
    .error ConfigError.invalidCounts
  else
    let usableThreads := min numThreads allCities.length
    let citiesPerThread := ceilDiv allCities.length usableThreads
    .ok (threadGroups allCities citiesPerThread usableThreads)

/-! ## Bulk Loader — `load_movr_data`, `add_users`, `add_vehicles`, `add_rides` -/

/-- One committed chunk transaction of the Bulk Loader, tagged by city
and chunk start offset (`for chunk in range(0, n, chunk_size)`). -/
inductive Txn
  | usersChunk (city : Str) (chunk : ℕ)
  | vehiclesChunk (city : Str) (chunk : ℕ)
  | ridesChunk (city : Str) (chunk : ℕ)
  deriving Repr, DecidableEq

/-- The chunk loop of `add_users` (chunk size 1000): every chunk runs
unconditionally — the loop contains no stop-flag check. -/
def add_users_txns (numUsers : ℕ) (city : Str) : List Txn :=
  (List.range (ceilDiv numUsers 1000)).map (fun i => Txn.usersChunk city (i * 1000))

/-- The chunk loop of `add_vehicles` (chunk size 1000), no stop-flag check. -/
def add_vehicles_txns (numVehicles : ℕ) (city : Str) : List Txn :=
  (List.range (ceilDiv numVehicles 1000)).map (fun i => Txn.vehiclesChunk city (i * 1000))

/-- The chunk loop of `add_rides` (chunk size 800), no stop-flag check. -/
def add_rides_txns (numRides : ℕ) (city : Str) : List Txn :=
  (List.range (ceilDiv numRides 800)).map (fun i => Txn.ridesChunk city (i * 800))

/-- All chunk transactions one city contributes, in execution order
(users, then vehicles, then rides). -/
def cityTxns (numUsers numVehicles numRides : ℕ) (city : Str) : List Txn :=
  add_users_txns numUsers city ++ add_vehicles_txns numVehicles city ++
    add_rides_txns numRides city

/--
The per-city loop of `load_movr_data`, run by one loader thread.  `flag
t` is the value of `TERMINATE_GRACEFULLY` this thread would observe
after having executed `t` chunk transactions; the loop reads it once
per iteration, before each city (`if TERMINATE_GRACEFULLY: break`), and
nowhere inside the chunk loops.  The result is the list of chunk
transactions the thread executes.
-/
def load_movr_data (flag : ℕ → Bool) (numUsers numVehicles numRides : ℕ) :
    List Str → ℕ → List Txn
  | [], _ => []
  | city :: rest, t =>
    if flag t then []
    else
      cityTxns numUsers numVehicles numRides city ++
        load_movr_data flag numUsers numVehicles numRides rest
          (t + (cityTxns numUsers numVehicles numRides city).length)

/-- Number of chunk transactions contributed by the first `j` cities;
the loader's `j`-th between-cities flag check happens after exactly this
many of its transactions. -/
def prefixTxnCount (numUsers numVehicles numRides : ℕ) (cities : List Str) (j : ℕ) : ℕ :=
  (((cities.take j).map (cityTxns numUsers numVehicles numRides)).flatten).length

/-- A stop flag that is set (and stays set) from the observing thread's
`k`-th transaction on. -/
def stepFlag (k : ℕ) : ℕ → Bool := fun t => decide (k ≤ t)

/-- Formalisation of the claim as stated: the Bulk Loader checks the
stop flag between chunks as well, so once a monotone flag is set, no
further chunk transaction is started (the `i`-th executed transaction
starts when the flag still reads `false` at time `i`). -/
def bulkLoaderStopsBetweenChunks : Prop :=
  ∀ (flag : ℕ → Bool) (numUsers numVehicles numRides : ℕ) (cities : List Str),
    (∀ s t, s ≤ t → flag s = true → flag t = true) →
    ∀ i, i < (load_movr_data flag numUsers numVehicles numRides cities 0).length →
      flag i = false

/-! ## Workload Simulator — operation selection in `simulate_movr_load` -/

/-- The five operations one iteration of `simulate_movr_load` can
perform. -/
inductive Op
  | read
  | signup
  | addVehicle
  | startRide
  | endRide
  deriving Repr, DecidableEq

/--
Operation selection of one iteration, translated branch by branch:
`if random.random() < read_percentage` → read; else
`if random.random() < .1` → signup; `elif random.random() < .1` →
add-vehicle; `elif random.random() < .5` → start-ride; else end-ride.
The four draws `r1 r2 r3 r4` are the successive `random.random()`
results (uniform on `[0, 1)`).
-/
def selectOp (readPercentage r1 r2 r3 r4 : ℚ) : Op :=
  if r1 < readPercentage then Op.read
  else if r2 < 1 / 10 then Op.signup
  else if r3 < 1 / 10 then Op.addVehicle
  else if r4 < 1 / 2 then Op.startRide
  else Op.endRide

/-- `selectOp` evaluated at the tenth-grid point `(k1, k2, k3, k4) / 10`.
Every branch threshold of `selectOp 0` is a multiple of `1/10`, so the
selected operation depends only on which tenth of `[0, 1)` each uniform
draw falls into (`selectOp_eq_of_tenths` below); a uniform draw lands in
each tenth with probability exactly `1/10`, so counting grid points
gives the exact per-iteration operation probabilities. -/
def gridSelect (readPercentage : ℚ) (k : Fin 10 × Fin 10 × Fin 10 × Fin 10) : Op :=
  selectOp readPercentage ((k.1.val : ℚ) / 10) ((k.2.1.val : ℚ) / 10)
    ((k.2.2.1.val : ℚ) / 10) ((k.2.2.2.val : ℚ) / 10)

/-- Number of the 10⁴ equiprobable tenth-grid outcomes selecting
operation `o`; the exact probability of `o` is `opCount f o / 10000`. -/
def opCount (readPercentage : ℚ) (o : Op) : ℕ :=
  (Finset.univ.filter (fun k : Fin 10 × Fin 10 × Fin 10 × Fin 10 =>
    gridSelect readPercentage k = o)).card

/-- `gridSelect 0` with every branch condition rewritten through the
order-isomorphism `a ↦ a / 10` into a comparison of naturals
(`gridSelect_zero_eq_natSelect` below); computation-friendly. -/
def natSelect (k : Fin 10 × Fin 10 × Fin 10 × Fin 10) : Op :=
  if k.1.val < 0 then Op.read
  else if k.2.1.val < 1 then Op.signup
  else if k.2.2.1.val < 1 then Op.addVehicle
  else if k.2.2.2.val < 5 then Op.startRide
  else Op.endRide

/-- `opCount 0` computed through `natSelect`. -/
def opCountN (o : Op) : ℕ :=
  (Finset.univ.filter (fun k : Fin 10 × Fin 10 × Fin 10 × Fin 10 =>
    natSelect k = o)).card

/-- `natSelect` with the first coordinate dropped — with
`read_percentage = 0` the read branch is never taken, so the selection
depends only on the last three draws. -/
def natSelect3 (k : Fin 10 × Fin 10 × Fin 10) : Op :=
  if k.1.val < 1 then Op.signup
  else if k.2.1.val < 1 then Op.addVehicle
  else if k.2.2.val < 5 then Op.startRide
  else Op.endRide

/-- Grid count over the last three draws only. -/
def opCountN3 (o : Op) : ℕ :=
  (Finset.univ.filter (fun k : Fin 10 × Fin 10 × Fin 10 =>
    natSelect3 k = o)).card

/-! ## Shutdown Coordinator — `signal_handler` -/

/-- `grace_period = 15` (seconds). -/
def grace_period : ℕ := 15

/--
The polling loop of `signal_handler`:  at poll `i` it reads
`threading.active_count()` (modelled by `count i`) and
`time.time() - start` (modelled by `elapsed i`); it leaves the loop and
exits `0` (`sys.exit(0)`, graceful) as soon as `count i ≤ 1`, and
force-terminates with exit code `1` (`os._exit(1)`) as soon as
`grace_period < elapsed i` while workers remain.  `fuel` bounds the
number of polls modelled; `none` means the loop was still polling.
-/
def handlerLoop (count : ℕ → ℕ) (elapsed : ℕ → ℚ) : ℕ → ℕ → Option ℕ
  | 0, _ => none
  | fuel + 1, i =>
    if count i ≤ 1 then some 0
    else if (grace_period : ℚ) < elapsed i then some 1
    else handlerLoop count elapsed fuel (i + 1)

/-- `signal_handler`: sets `TERMINATE_GRACEFULLY := True` (the first
component — the handler assigns it exactly once and no statement in the
program ever resets it), then polls.  Returns the flag value and the
process exit code. -/
def signal_handler (count : ℕ → ℕ) (elapsed : ℕ → ℚ) (fuel : ℕ) : Bool × Option ℕ :=
  (true, handlerLoop count elapsed fuel 0)

/-! ## Workload Simulator — shared state and the active-ride pool -/

/-- A lightweight reference to a started ride (`{'city': ..., 'id': ...}`),
ids modelled as naturals. -/
structure RideRef where
  city : Str
  id : ℕ
  deriving Repr, DecidableEq

/-- One city's in-memory registry
(`movr_objects[city] = {"users": ..., "vehicles": ...}`), entity
references modelled as ids. -/
structure CityRegistry where
  users : List ℕ
  vehicles : List ℕ
  deriving Repr, DecidableEq

/-- The shared state the simulation workers mutate: the per-city
registries, the active-ride pool, and (storage-side) the rides marked
ended so far. -/
structure SimState where
  movr_objects : List (Str × CityRegistry)
  activeRides : List RideRef
  ended : List RideRef
  deriving Repr, DecidableEq

/--
The end-ride branch of `simulate_movr_load`: `if len(active_rides):`
pop the most recently appended ride (Python `list.pop()` removes the
last element) and mark it ended in storage
(`movr.end_ride(ride['city'], ride['id'])`); on an empty pool the
iteration does nothing.
-/
def endRideOp (s : SimState) : SimState :=
  match s.activeRides.getLast? with
  | some ride =>
    { s with
      activeRides := s.activeRides.dropLast,
      ended := s.ended ++ [ride] }
  | none => s

/-- `n` consecutive end-ride iterations with no intervening start-ride. -/
def endRideIter : ℕ → SimState → SimState
  | 0, s => s
  | n + 1, s => endRideIter n (endRideOp s)

/-! ## Load generator entry — `run_load_generator` -/

/-- The warm-up loop of `run_load_generator`: reads each city's users
and vehicles from storage (`storage`), exits with an error when either
is empty (`sys.exit(1)` in the source), and extends the active-ride
pool with the city's open rides (`movr.get_active_rides(city)`). -/
def warmup (storage : Str → CityRegistry) (ridesOf : Str → List RideRef) :
    List Str → Except ConfigError (List (Str × CityRegistry) × List RideRef)
  | [] => .ok ([], [])
  | city :: rest =>
    let reg := storage city
    if reg.vehicles.length = 0 ∨ reg.users.length = 0 then
      .error (ConfigError.emptyRegistry city)
    else
      match warmup storage ridesOf rest with
      | .error e => .error e
      | .ok (objs, rides) => .ok ((city, reg) :: objs, ridesOf city ++ rides)

/--
`run_load_generator`: validates the read percentage
(`read_percentage < 0 or read_percentage > 1` raises before anything
else happens), chooses the city list, performs the warm-up read, and
starts `num_threads` simulation workers.  The returned value is the
warmed-up shared state together with the number of worker threads
started.
-/
def run_load_generator (storage : Str → CityRegistry) (ridesOf : Str → List RideRef)
    (readPercentage : ℚ) (cityList : Option (List Str)) (allCities : List Str)
    (numThreads : ℕ) : Except ConfigError (SimState × ℕ) :=
  if readPercentage < 0 ∨ 1 < readPercentage then
    .error ConfigError.invalidReadPercentage
  else
    let cities := cityList.getD allCities
    match warmup storage ridesOf cities with
    | .error e => .error e
    | .ok (objs, rides) =>
      .ok ({ movr_objects := objs, activeRides := rides, ended := [] }, numThreads)

/-! ## Vehicle-metadata argument — simulator vs. bulk loader -/

/-- The value passed to `MovRGenerator.generate_vehicle_metadata`. -/
inductive MetaArg
  | pyBuiltinType
  | vehicleType (t : ℕ)
  deriving Repr, DecidableEq

/-- The argument record of one `add_vehicle` storage call (vehicle types
modelled as ids, the external generator treated as opaque). -/
structure NewVehicleCall where
  city : Str
  owner_id : ℕ
  vtype : ℕ
  vehicle_metadata : MetaArg
  deriving Repr, DecidableEq

/--
The add-vehicle branch of `simulate_movr_load`:
`type = MovRGenerator.generate_random_vehicle()` is a keyword argument
of the `movr.add_vehicle(...)` call, so inside the same argument list
the name `type` in `generate_vehicle_metadata(type)` does not refer to
it — it resolves to the Python builtin `type`.  The metadata argument is
therefore the fixed value `MetaArg.pyBuiltinType`, independent of
`generatedType`.
-/
def sim_add_vehicle_call (city : Str) (ownerId generatedType : ℕ) : NewVehicleCall :=
  { city := city
    owner_id := ownerId
    vtype := generatedType
    vehicle_metadata := MetaArg.pyBuiltinType }

/-- The vehicle construction in the bulk loader's `add_vehicles`:
`vehicle_type = MovRGenerator.generate_random_vehicle()` is a local
variable there, and
`ext = MovRGenerator.generate_vehicle_metadata(vehicle_type)` passes
that generated type. -/
def bulk_add_vehicle_call (city : Str) (ownerId generatedType : ℕ) : NewVehicleCall :=
  { city := city
    owner_id := ownerId
    vtype := generatedType
    vehicle_metadata := MetaArg.vehicleType generatedType }

/-! # Theorems

## Operation selection probabilities (`simulate_movr_load`) -/

/-- With `read_percentage = 0`, the operation selected by one iteration
depends only on which tenth of `[0, 1)` each of the four uniform draws
falls in (every branch threshold is a multiple of `1/10`); hence the
tenth-grid count `opCount` gives the exact operation probabilities. -/
theorem selectOp_eq_of_tenths (r1 r2 r3 r4 s1 s2 s3 s4 : ℚ)
    (h1 : ⌊10 * r1⌋ = ⌊10 * s1⌋) (h2 : ⌊10 * r2⌋ = ⌊10 * s2⌋)
    (h3 : ⌊10 * r3⌋ = ⌊10 * s3⌋) (h4 : ⌊10 * r4⌋ = ⌊10 * s4⌋) :
    selectOp 0 r1 r2 r3 r4 = selectOp 0 s1 s2 s3 s4 := by
  have key : ∀ (r s : ℚ) (n : ℤ), ⌊10 * r⌋ = ⌊10 * s⌋ →
      ((r < (n : ℚ) / 10) ↔ (s < (n : ℚ) / 10)) := by
    intro r s n h
    rw [lt_div_iff₀ (by norm_num : (0:ℚ) < 10), lt_div_iff₀ (by norm_num : (0:ℚ) < 10),
      mul_comm r, mul_comm s, ← Int.floor_lt, ← Int.floor_lt, h]
  have e1 := key r1 s1 0 h1
  have e2 := key r2 s2 1 h2
  have e3 := key r3 s3 1 h3
  have e4 := key r4 s4 5 h4
  norm_num at e1 e2 e3 e4
  unfold selectOp
  simp only [e1, e2, e3, e4]

theorem div10_lt_div10 (a b : ℕ) : ((a : ℚ) / 10 < (b : ℚ) / 10) ↔ a < b := by
  rw [div_lt_div_iff_of_pos_right (by norm_num : (0:ℚ) < 10)]
  exact Nat.cast_lt

theorem gridSelect_zero_eq_natSelect (k : Fin 10 × Fin 10 × Fin 10 × Fin 10) :
    gridSelect 0 k = natSelect k := by
  have h0 : ∀ a : ℕ, ¬((a : ℚ) / 10 < 0) := fun a => not_lt.mpr (by positivity)
  have h1 : ∀ a : ℕ, (((a : ℚ) / 10 < 1 / 10) ↔ a < 1) := fun a => by
    rw [show (1:ℚ)/10 = ((1:ℕ):ℚ)/10 by norm_num, div10_lt_div10]
  have h5 : ∀ a : ℕ, (((a : ℚ) / 10 < 1 / 2) ↔ a < 5) := fun a => by
    rw [show (1:ℚ)/2 = ((5:ℕ):ℚ)/10 by norm_num, div10_lt_div10]
  unfold gridSelect natSelect selectOp
  simp only [h0, h1, h5, Nat.not_lt_zero, if_false]

theorem opCount_zero_eq (o : Op) : opCount 0 o = opCountN o :=
  congrArg Finset.card
    (Finset.filter_congr (fun k _ => by rw [gridSelect_zero_eq_natSelect]))

theorem natSelect_eq_natSelect3 (k : Fin 10 × Fin 10 × Fin 10 × Fin 10) :
    natSelect k = natSelect3 k.2 := by
  simp [natSelect, natSelect3]

theorem opCountN_eq (o : Op) : opCountN o = 10 * opCountN3 o := by
  unfold opCountN opCountN3
  have h : (Finset.univ.filter
        (fun k : Fin 10 × Fin 10 × Fin 10 × Fin 10 => natSelect k = o))
      = Finset.univ ×ˢ
        (Finset.univ.filter (fun k2 : Fin 10 × Fin 10 × Fin 10 => natSelect3 k2 = o)) := by
    ext k
    simp [Finset.mem_product, natSelect_eq_natSelect3]
  rw [h, Finset.card_product]
  simp [Finset.card_univ]

set_option maxRecDepth 10000 in
/-- *C2* (counterexample): with `readFraction = 0` the per-iteration
probabilities claimed by the spec — read 0 %, signup 9 %, add-vehicle
8.1 %, start-ride 41.45 %, end-ride 41.45 % — do not hold of the code:
the signup probability is `1/10`, not `9/100` (the spec discounted the
write branch by a factor 0.9 that is 1 here, since the read branch has
probability 0). -/
theorem c2_claimed_ratios_false :
    ¬((opCount 0 Op.read : ℚ) / 10000 = 0 ∧
      (opCount 0 Op.signup : ℚ) / 10000 = 9 / 100 ∧
      (opCount 0 Op.addVehicle : ℚ) / 10000 = 81 / 1000 ∧
      (opCount 0 Op.startRide : ℚ) / 10000 = 829 / 2000 ∧
      (opCount 0 Op.endRide : ℚ) / 10000 = 829 / 2000) := by
  intro h
  have hs := h.2.1
  rw [opCount_zero_eq, opCountN_eq] at hs
  have hv : opCountN3 Op.signup = 100 := by decide
  rw [hv] at hs
  norm_num at hs

set_option maxRecDepth 10000 in
/-- *C2* (amended): with `readFraction = 0`, operation selection is by
sequential independent coin flips in the order read-vs-write, signup,
add-vehicle, start-ride-vs-end-ride (the branch structure of
`selectOp`), and the exact per-iteration probabilities are:
read 0 %, signup 10 %, add-vehicle 9 % (0.9 × 0.1), start-ride 40.5 %
(0.9 × 0.9 × 0.5), end-ride 40.5 %. -/
theorem c2_op_probabilities :
    opCount 0 Op.read = 0 ∧
    (opCount 0 Op.signup : ℚ) / 10000 = 1 / 10 ∧
    (opCount 0 Op.addVehicle : ℚ) / 10000 = 9 / 100 ∧
    (opCount 0 Op.startRide : ℚ) / 10000 = 81 / 200 ∧
    (opCount 0 Op.endRide : ℚ) / 10000 = 81 / 200 := by
  have h1 : opCountN3 Op.read = 0 := by decide
  have h2 : opCountN3 Op.signup = 100 := by decide
  have h3 : opCountN3 Op.addVehicle = 90 := by decide
  have h4 : opCountN3 Op.startRide = 405 := by decide
  have h5 : opCountN3 Op.endRide = 405 := by decide
  refine ⟨?_, ?_, ?_, ?_, ?_⟩ <;>
    rw [opCount_zero_eq, opCountN_eq] <;>
    simp only [h1, h2, h3, h4, h5] <;>
    norm_num

/-! ## Partition Mapper -/

theorem splitOnColon_ne_nil (s : Str) : splitOnColon s ≠ [] := by
  cases s with
  | nil => simp [splitOnColon]
  | cons c rest =>
    simp only [splitOnColon]
    by_cases hc : c = ':'
    · simp [hc]
    · simp only [hc, if_false]
      cases h : splitOnColon rest <;> simp

theorem joinColon_cons (s : Str) (l : List Str) (h : l ≠ []) :
    joinColon (s :: l) = s ++ ':' :: joinColon l := by
  cases l with
  | nil => exact absurd rfl h
  | cons p ps => rfl

/-- `":".join(s.split(":")) == s`. -/
theorem joinColon_splitOnColon (s : Str) : joinColon (splitOnColon s) = s := by
  induction s with
  | nil => rfl
  | cons c rest ih =>
    by_cases hc : c = ':'
    · rw [show splitOnColon (c :: rest) = [] :: splitOnColon rest by simp [splitOnColon, hc]]
      rw [joinColon_cons _ _ (splitOnColon_ne_nil rest), ih, hc]
      rfl
    · cases h : splitOnColon rest with
      | nil => exact absurd h (splitOnColon_ne_nil rest)
      | cons p ps =>
        have hs : splitOnColon (c :: rest) = (c :: p) :: ps := by
          simp [splitOnColon, hc, h]
        rw [hs]
        cases ps with
        | nil =>
          have hp : p = rest := by
            have h2 := ih
            rw [h] at h2
            exact h2
          simp [joinColon, hp]
        | cons q qs =>
          rw [joinColon_cons _ _ (by simp)]
          have h2 : joinColon (p :: q :: qs) = rest := by
            rw [← h]
            exact ih
          rw [joinColon_cons _ _ (by simp)] at h2
          rw [← h2]
          simp

/-- For an entry containing a colon, the first split segment is the text
before the first colon and rejoining the remaining segments restores the
text after the first colon. -/
theorem splitOnColon_head_tail (s : Str) (h : ':' ∈ s) :
    (splitOnColon s).headI = partOf s ∧
    joinColon (splitOnColon s).tail = cityOf s := by
  induction s with
  | nil => simp at h
  | cons c rest ih =>
    by_cases hc : c = ':'
    · rw [show splitOnColon (c :: rest) = [] :: splitOnColon rest by simp [splitOnColon, hc]]
      constructor
      · simp [partOf, hc]
      · simp only [List.tail_cons]
        rw [joinColon_splitOnColon]
        simp [cityOf, hc]
    · have hr : ':' ∈ rest := by
        rcases List.mem_cons.mp h with h1 | h2
        · exact absurd h1.symm hc
        · exact h2
      obtain ⟨ih1, ih2⟩ := ih hr
      cases hsp : splitOnColon rest with
      | nil => exact absurd hsp (splitOnColon_ne_nil rest)
      | cons p ps =>
        rw [hsp] at ih1 ih2
        rw [show splitOnColon (c :: rest) = (c :: p) :: ps by simp [splitOnColon, hc, hsp]]
        constructor
        · simp only [List.headI] at ih1 ⊢
          simp [partOf, hc] at ih1 ⊢
          exact ih1
        · simp only [List.tail_cons] at ih2 ⊢
          rw [ih2]
          simp [cityOf, hc]

/-- The `len(pair) < 1` fallback of the Partition Mapper is dead code:
`split` always returns at least one segment, so the mapper never takes
the broken branch and never raises. -/
theorem processEntries_eq (entries : List Str) (m : List (Str × List Str)) :
    processEntries entries m = .ok (mapperFold entries m) := by
  induction entries generalizing m with
  | nil => rfl
  | cons e rest ih =>
    have hs := splitOnColon_ne_nil e
    simp only [processEntries, mapperFold]
    rw [if_neg]
    · exact ih _
    · simp [Nat.lt_one_iff, List.length_eq_zero, hs]

theorem citiesOf_nil (p : Str) : citiesOf [] p = [] := rfl

theorem citiesOf_cons (k0 : Str) (vs : List Str) (rest : List (Str × List Str)) (p : Str) :
    citiesOf ((k0, vs) :: rest) p = if k0 = p then vs else citiesOf rest p := by
  by_cases h : k0 = p
  · simp [citiesOf, List.find?_cons, h]
  · simp [citiesOf, List.find?_cons, h]

theorem citiesOf_insertPair (m : List (Str × List Str)) (k v p : Str) :
    citiesOf (insertPair m k v) p =
      if p = k then citiesOf m p ++ [v] else citiesOf m p := by
  induction m with
  | nil =>
    by_cases h : p = k
    · simp [insertPair, citiesOf_cons, citiesOf_nil, h]
    · simp [insertPair, citiesOf_cons, citiesOf_nil, h, Ne.symm h]
  | cons q rest ih =>
    obtain ⟨k0, vs⟩ := q
    simp only [insertPair]
    by_cases h0 : k0 = k
    · rw [if_pos h0]
      by_cases hp : p = k
      · simp [citiesOf_cons, h0.trans hp.symm, hp]
      · have hkp : ¬ k0 = p := fun hh => hp (hh.symm.trans h0)
        simp [citiesOf_cons, hkp, hp]
    · rw [if_neg h0]
      by_cases hkp : k0 = p
      · have hp : ¬ p = k := fun hh => h0 (hkp.trans hh)
        simp [citiesOf_cons, hkp, hp]
      · simp [citiesOf_cons, hkp, ih]

theorem totalCities_insertPair (m : List (Str × List Str)) (k v : Str) :
    totalCities (insertPair m k v) = totalCities m + 1 := by
  induction m with
  | nil => simp [insertPair, totalCities]
  | cons q rest ih =>
    obtain ⟨k0, vs⟩ := q
    by_cases h0 : k0 = k
    · simp [insertPair, h0, totalCities]
      omega
    · simp [insertPair, h0, totalCities] at ih ⊢
      omega

theorem mapperFold_citiesOf (entries : List Str) (m : List (Str × List Str))
    (h : ∀ e ∈ entries, ':' ∈ e) (p : Str) :
    citiesOf (mapperFold entries m) p =
      citiesOf m p ++ (entries.filter (fun e => decide (partOf e = p))).map cityOf := by
  induction entries generalizing m with
  | nil => simp [mapperFold]
  | cons e rest ih =>
    have he := h e (by simp)
    have hrest : ∀ x ∈ rest, ':' ∈ x := fun x hx => h x (by simp [hx])
    obtain ⟨h1, h2⟩ := splitOnColon_head_tail e he
    simp only [mapperFold]
    rw [ih _ hrest, h1, h2, citiesOf_insertPair]
    by_cases hp : p = partOf e
    · subst hp
      simp [List.filter_cons]
    · rw [if_neg hp]
      have hne : ¬ (partOf e = p) := fun hh => hp hh.symm
      simp [List.filter_cons, hne]

theorem mapperFold_totalCities (entries : List Str) (m : List (Str × List Str)) :
    totalCities (mapperFold entries m) = totalCities m + entries.length := by
  induction entries generalizing m with
  | nil => simp [mapperFold]
  | cons e rest ih =>
    simp only [mapperFold]
    rw [ih, totalCities_insertPair]
    simp [List.length_cons]
    omega

/-- *C5*: for every input list whose entries all contain at least one
colon, the Partition Mapper succeeds, maps each entry's text before the
first colon to the text after the first colon (further colons preserved
by rejoining), keeps the cities of each partition in first-seen input
order, and every input entry contributes exactly one city. -/
theorem c5_partition_mapper (entries : List Str) (hwf : ∀ e ∈ entries, ':' ∈ e) :
    extract_partition_pairs_from_cli (some entries) = .ok (mapperFold entries []) ∧
    (∀ p, citiesOf (mapperFold entries []) p =
      (entries.filter (fun e => decide (partOf e = p))).map cityOf) ∧
    totalCities (mapperFold entries []) = entries.length := by
  refine ⟨processEntries_eq entries [], ?_, ?_⟩
  · intro p
    have h := mapperFold_citiesOf entries [] hwf p
    rw [citiesOf_nil] at h
    simpa using h
  · have h := mapperFold_totalCities entries []
    simpa [totalCities] using h

/-- *C5* witness: the mapper on
`["east:boston", "west:la", "east:a:b"]` keeps `east`'s cities in input
order, preserves the second colon of `a:b`, and covers all three
entries. -/
theorem c5_partition_mapper_witness :
    citiesOf (mapperFold ["east:boston".toList, "west:la".toList, "east:a:b".toList] [])
      ("east".toList) = ["boston".toList, "a:b".toList] ∧
    totalCities (mapperFold ["east:boston".toList, "west:la".toList, "east:a:b".toList] [])
      = 3 := by
  have h := c5_partition_mapper
    ["east:boston".toList, "west:la".toList, "east:a:b".toList] (by decide)
  exact ⟨(h.2.1 ("east".toList)).trans (by decide), h.2.2.trans (by decide)⟩

/-- *C6*: evaluating the Partition Mapper at the colon-less entry
`"boston"`: `"boston".split(":")` is `["boston"]` of length 1, so the
`len(pair) < 1` fallback is not taken and no error is raised — the entry
is silently turned into partition `"boston"` with the empty string as
its city, contradicting the specified `ConfigError`. -/
theorem c6_colonless_entry_not_rejected :
    extract_partition_pairs_from_cli (some ["boston".toList]) =
      .ok [("boston".toList, [[]])] := by
  rfl

/-- *C7* (counterexample): an empty (but present) partition-pair list
does not produce the default mapping — the loop body never runs and the
mapper returns the empty dict. -/
theorem c7_empty_list_not_default :
    extract_partition_pairs_from_cli (some []) = .ok [] ∧
    extract_partition_pairs_from_cli (some []) ≠ .ok DEFAULT_PARTITION_MAP := by
  refine ⟨rfl, ?_⟩
  intro h
  simp only [extract_partition_pairs_from_cli, processEntries] at h
  injection h with h2
  simp [DEFAULT_PARTITION_MAP] at h2

/-- *C7* (amended): only an absent (`None`) partition-pair input yields
the built-in default mapping of three partitions with three cities each;
an empty list yields an empty mapping. -/
theorem c7_default_map :
    extract_partition_pairs_from_cli none = .ok DEFAULT_PARTITION_MAP ∧
    extract_partition_pairs_from_cli (some []) = .ok [] ∧
    DEFAULT_PARTITION_MAP.length = 3 ∧
    DEFAULT_PARTITION_MAP.map (fun q => q.2.length) = [3, 3, 3] :=
  ⟨rfl, rfl, rfl, rfl⟩

/-! ## Load Distributor -/

theorem threadGroups_nil (cpt fuel : ℕ) : threadGroups [] cpt fuel = [] := by
  induction fuel with
  | zero => rfl
  | succ n ih => simp [threadGroups, ih]

theorem threadGroups_length_le (cities : List Str) (cpt fuel : ℕ) :
    (threadGroups cities cpt fuel).length ≤ fuel := by
  induction fuel generalizing cities with
  | zero => simp [threadGroups]
  | succ n ih =>
    simp only [threadGroups]
    split
    · simpa using Nat.succ_le_succ (ih _)
    · exact le_trans (ih _) (Nat.le_succ n)

theorem threadGroups_flatten (cpt fuel : ℕ) :
    ∀ cities : List Str, cities.length ≤ fuel * cpt →
      (threadGroups cities cpt fuel).flatten = cities := by
  induction fuel with
  | zero =>
    intro cities h
    have hnil : cities = [] := List.eq_nil_of_length_eq_zero (by omega)
    simp [hnil, threadGroups]
  | succ n ih =>
    intro cities h
    by_cases hc : 0 < cities.length
    · simp only [threadGroups]
      rw [if_pos hc, List.flatten_cons]
      have hlen : (cities.drop cpt).length ≤ n * cpt := by
        rw [List.length_drop]
        rw [Nat.succ_mul] at h
        omega
      rw [ih _ hlen, List.take_append_drop]
    · have hnil : cities = [] := List.eq_nil_of_length_eq_zero (by omega)
      simp [hnil, threadGroups_nil]

theorem threadGroups_mem (cpt fuel : ℕ) (hcpt : 1 ≤ cpt) :
    ∀ (cities : List Str) (g : List Str), g ∈ threadGroups cities cpt fuel →
      g ≠ [] ∧ g.length ≤ cpt := by
  induction fuel with
  | zero =>
    intro cities g hg
    simp [threadGroups] at hg
  | succ n ih =>
    intro cities g hg
    simp only [threadGroups] at hg
    by_cases hc : 0 < cities.length
    · rw [if_pos hc] at hg
      rcases List.mem_cons.mp hg with h1 | h2
      · subst h1
        refine ⟨?_, ?_⟩
        · intro hnil
          have h0 := congrArg List.length hnil
          rw [List.length_take] at h0
          simp only [List.length_nil] at h0
          rcases Nat.min_eq_zero_iff.mp h0 with h | h <;> omega
        · rw [List.length_take]
          exact min_le_left _ _
      · exact ih _ _ h2
    · rw [if_neg hc] at hg
      exact ih _ _ hg

theorem threadGroups_dropLast (cpt fuel : ℕ) :
    ∀ (cities : List Str) (g : List Str), g ∈ (threadGroups cities cpt fuel).dropLast →
      g.length = cpt := by
  induction fuel with
  | zero =>
    intro cities g hg
    simp [threadGroups] at hg
  | succ n ih =>
    intro cities g hg
    simp only [threadGroups] at hg
    by_cases hc : 0 < cities.length
    · rw [if_pos hc] at hg
      cases hrec : threadGroups (cities.drop cpt) cpt n with
      | nil =>
        rw [hrec] at hg
        simp at hg
      | cons a l =>
        rw [hrec] at hg
        have hdrop : (cities.take cpt :: a :: l).dropLast
            = cities.take cpt :: (a :: l).dropLast := rfl
        rw [hdrop] at hg
        rcases List.mem_cons.mp hg with h1 | h2
        · subst h1
          have hne : cities.drop cpt ≠ [] := by
            intro hnil
            rw [hnil, threadGroups_nil] at hrec
            exact List.cons_ne_nil a l hrec.symm
          have : cpt < cities.length := by
            have := List.length_pos.mpr hne
            rw [List.length_drop] at this
            omega
          simp [List.length_take]
          omega
        · rw [← hrec] at h2
          exact ih _ _ h2
    · rw [if_neg hc] at hg
      exact ih _ _ hg

/-- *C1*: for every non-empty city list, positive requested thread
count and valid per-entity counts, the Load Distributor starts at most
`min(requested, numCities)` worker threads, each thread's group is a
non-empty contiguous slice of at most
`ceil(numCities / usableThreads)` cities (every group except possibly
the last has exactly that size), and the concatenation of the groups is
the original city list — no city duplicated or dropped. -/
theorem c1_load_distributor (allCities : List Str) (numUsers numRides numVehicles : ℤ)
    (numThreads : ℕ) (hc : allCities ≠ []) (ht : 1 ≤ numThreads)
    (hu : 0 < numUsers) (hr : 0 < numRides) (hv : 0 < numVehicles) :
    ∃ groups : List (List Str),
      run_data_loader allCities numUsers numRides numVehicles numThreads = .ok groups ∧
      groups.length ≤ min numThreads allCities.length ∧
      groups.flatten = allCities ∧
      (∀ g ∈ groups, g ≠ [] ∧
        g.length ≤ ceilDiv allCities.length (min numThreads allCities.length)) ∧
      (∀ g ∈ groups.dropLast,
        g.length = ceilDiv allCities.length (min numThreads allCities.length)) := by
  have hlen : 0 < allCities.length := List.length_pos.mpr hc
  have husable : 1 ≤ min numThreads allCities.length := le_min ht hlen
  have hcpt : 1 ≤ ceilDiv allCities.length (min numThreads allCities.length) := by
    rw [ceilDiv, Nat.one_le_div_iff (by omega)]
    omega
  have hbound : allCities.length ≤
      min numThreads allCities.length *
        ceilDiv allCities.length (min numThreads allCities.length) := by
    rw [ceilDiv]
    have h1 := Nat.div_add_mod (allCities.length + min numThreads allCities.length - 1)
      (min numThreads allCities.length)
    have h2 := Nat.mod_lt (allCities.length + min numThreads allCities.length - 1)
      (show 0 < min numThreads allCities.length by omega)
    omega
  refine ⟨threadGroups allCities
      (ceilDiv allCities.length (min numThreads allCities.length))
      (min numThreads allCities.length), ?_, ?_, ?_, ?_, ?_⟩
  · simp only [run_data_loader]
    rw [if_neg (by omega : ¬(numUsers ≤ 0 ∨ numRides ≤ 0 ∨ numVehicles ≤ 0))]
  · exact threadGroups_length_le _ _ _
  · exact threadGroups_flatten _ _ _ hbound
  · exact fun g hg => threadGroups_mem _ _ hcpt _ g hg
  · exact fun g hg => threadGroups_dropLast _ _ _ g hg

/-- *C1* witness: five cities over three requested threads: groups
`[a, b]`, `[c, d]`, `[e]` — all five cities covered once, three threads,
chunk size `ceil(5 / 3) = 2`. -/
theorem c1_load_distributor_witness :
    ∃ groups : List (List Str),
      run_data_loader ["a".toList, "b".toList, "c".toList, "d".toList, "e".toList]
        1 1 1 3 = .ok groups ∧
      groups.length ≤ min 3
        (["a".toList, "b".toList, "c".toList, "d".toList, "e".toList] : List Str).length ∧
      groups.flatten = ["a".toList, "b".toList, "c".toList, "d".toList, "e".toList] := by
  obtain ⟨g, h1, h2, h3, _, _⟩ :=
    c1_load_distributor ["a".toList, "b".toList, "c".toList, "d".toList, "e".toList]
      1 1 1 3 (by decide) (by decide) (by decide) (by decide) (by decide)
  exact ⟨g, h1, h2, h3⟩

/-! ## Bulk Loader stop-flag checks -/

theorem prefixTxnCount_zero (nu nv nr : ℕ) (cities : List Str) :
    prefixTxnCount nu nv nr cities 0 = 0 := rfl

theorem prefixTxnCount_succ (nu nv nr : ℕ) (c : Str) (rest : List Str) (j : ℕ) :
    prefixTxnCount nu nv nr (c :: rest) (j + 1) =
      (cityTxns nu nv nr c).length + prefixTxnCount nu nv nr rest j := by
  simp [prefixTxnCount, List.take_succ_cons]

/-- *C3* (amended): the Bulk Loader checks the Global Stop Flag only
between cities — each run executes the chunk transactions of a maximal
prefix of its city list, where every started city's between-cities
check read the flag as unset, and a set flag at a check makes the
loader exit early without raising, so no later city's chunk
transactions are started.  (Chunks of a city already in progress are
not guarded: see the counterexample theorem.) -/
theorem c3_loader_stops_between_cities (flag : ℕ → Bool) (nu nv nr : ℕ)
    (cities : List Str) (t0 : ℕ) :
    ∃ k, k ≤ cities.length ∧
      load_movr_data flag nu nv nr cities t0 =
        ((cities.take k).map (cityTxns nu nv nr)).flatten ∧
      (∀ j < k, flag (t0 + prefixTxnCount nu nv nr cities j) = false) ∧
      (k < cities.length → flag (t0 + prefixTxnCount nu nv nr cities k) = true) := by
  induction cities generalizing t0 with
  | nil =>
    exact ⟨0, le_refl 0, rfl, fun j hj => absurd hj (Nat.not_lt_zero j),
      fun h => absurd h (lt_irrefl 0)⟩
  | cons c rest ih =>
    by_cases hf : flag t0 = true
    · refine ⟨0, Nat.zero_le _, ?_, fun j hj => absurd hj (Nat.not_lt_zero j), fun _ => ?_⟩
      · simp [load_movr_data, hf]
      · simpa [prefixTxnCount_zero] using hf
    · have hf' : flag t0 = false := by simpa using hf
      obtain ⟨k, hk, heq, hall, hnext⟩ := ih (t0 + (cityTxns nu nv nr c).length)
      refine ⟨k + 1, Nat.succ_le_succ hk, ?_, ?_, ?_⟩
      · rw [load_movr_data, if_neg hf, heq]
        simp [List.take_succ_cons]
      · intro j hj
        cases j with
        | zero => simpa [prefixTxnCount_zero] using hf'
        | succ j' =>
          have hj' : j' < k := Nat.lt_of_succ_lt_succ hj
          have h := hall j' hj'
          rw [prefixTxnCount_succ, ← Nat.add_assoc]
          exact h
      · intro hlt
        have hlt' : k < rest.length := Nat.lt_of_succ_lt_succ hlt
        have h := hnext hlt'
        rw [prefixTxnCount_succ, ← Nat.add_assoc]
        exact h

/-- *C3* (counterexample): the claim that the loader also checks the
flag between chunks — so that no chunk transaction starts once a
monotone flag is set — is false: with 2000 users for a single city the
loader runs 4 chunk transactions, and a flag set from transaction 1 on
(monotone, and `false` at the only between-cities check) does not stop
transactions 1, 2, 3 from starting. -/
theorem c3_not_stopped_between_chunks : ¬ bulkLoaderStopsBetweenChunks := by
  intro h
  have hmono : ∀ s t, s ≤ t → stepFlag 1 s = true → stepFlag 1 t = true := by
    intro s t hst hs
    simp only [stepFlag, decide_eq_true_eq] at hs ⊢
    omega
  have hlen : 1 < (load_movr_data (stepFlag 1) 2000 1 1 ["x".toList] 0).length := by decide
  have hcontra := h (stepFlag 1) 2000 1 1 ["x".toList] hmono 1 hlen
  simp [stepFlag] at hcontra

/-! ## Shutdown Coordinator -/

theorem handlerLoop_first_trigger (count : ℕ → ℕ) (elapsed : ℕ → ℚ) :
    ∀ (fuel i n : ℕ), i ≤ n → n < i + fuel →
      (∀ j, i ≤ j → j < n → 1 < count j ∧ elapsed j ≤ grace_period) →
      (count n ≤ 1 ∨ (grace_period : ℚ) < elapsed n) →
      handlerLoop count elapsed fuel i = some (if count n ≤ 1 then 0 else 1) := by
  intro fuel
  induction fuel with
  | zero =>
    intro i n hin hfuel hpre htrig
    omega
  | succ m ih =>
    intro i n hin hfuel hpre htrig
    by_cases hi : i = n
    · subst hi
      by_cases h1 : count i ≤ 1
      · rw [handlerLoop, if_pos h1, if_pos h1]
      · have h2 : (grace_period : ℚ) < elapsed i := htrig.resolve_left h1
        rw [handlerLoop, if_neg h1, if_pos h2, if_neg h1]
    · have hlt : i < n := lt_of_le_of_ne hin hi
      have hj := hpre i (le_refl i) hlt
      rw [handlerLoop, if_neg (by omega), if_neg (not_lt.mpr hj.2)]
      exact ih (i + 1) n hlt (by omega) (fun j hj1 hj2 => hpre j (by omega) hj2) htrig

/-- *C4*: the Shutdown Coordinator sets the Global Stop Flag (assigned
`true` exactly once, never reset — the flag component of the result),
then polls; if the first poll that ends the wait observes all worker
threads exited (`active_count ≤ 1`), the process exits with success
status 0, and if it instead observes the grace period elapsed while
workers remain, the process is force-terminated immediately with the
non-zero status 1. -/
theorem c4_shutdown_coordinator (count : ℕ → ℕ) (elapsed : ℕ → ℚ) (n fuel : ℕ)
    (hfirst : ∀ j < n, 1 < count j ∧ elapsed j ≤ grace_period)
    (htrig : count n ≤ 1 ∨ (grace_period : ℚ) < elapsed n)
    (hfuel : n < fuel) :
    (signal_handler count elapsed fuel).1 = true ∧
    (signal_handler count elapsed fuel).2 = some (if count n ≤ 1 then 0 else 1) :=
  ⟨rfl, handlerLoop_first_trigger count elapsed fuel 0 n (Nat.zero_le n) (by omega)
    (fun j _ hj => hfirst j hj) htrig⟩

/-- *C4* witness: three workers draining one per poll — at poll 2 only
the main thread remains, well before the 15-second grace period, and
the handler exits gracefully with status 0 and the flag set. -/
theorem c4_shutdown_coordinator_witness :
    (signal_handler (fun i => 3 - i) (fun i => (i : ℚ)) 3).1 = true ∧
    (signal_handler (fun i => 3 - i) (fun i => (i : ℚ)) 3).2 = some 0 := by
  have h := c4_shutdown_coordinator (fun i => 3 - i) (fun i => (i : ℚ)) 2 3
    (by
      intro j hj
      interval_cases j <;> constructor <;> norm_num [grace_period])
    (Or.inl (by norm_num))
    (by norm_num)
  refine ⟨h.1, ?_⟩
  rw [h.2]
  norm_num

/-! ## Active Ride Pool -/

theorem endRideOp_nil (s : SimState) (h : s.activeRides = []) : endRideOp s = s := by
  simp [endRideOp, h]

theorem endRideIter_spec (n : ℕ) : ∀ s : SimState,
    (endRideIter n s).activeRides = s.activeRides.take (s.activeRides.length - n) ∧
    (endRideIter n s).ended =
      s.ended ++ (s.activeRides.drop (s.activeRides.length - n)).reverse := by
  induction n with
  | zero =>
    intro s
    simp [endRideIter, List.take_length, List.drop_length]
  | succ m ih =>
    intro s
    rcases List.eq_nil_or_concat s.activeRides with hnil | ⟨l, a, hconcat⟩
    · obtain ⟨h1, h2⟩ := ih s
      simp only [endRideIter]
      rw [endRideOp_nil s hnil]
      constructor
      · rw [h1, hnil]
        simp
      · rw [h2, hnil]
        simp
    · rw [List.concat_eq_append] at hconcat
      simp only [endRideIter]
      have hop : endRideOp s = { s with activeRides := l, ended := s.ended ++ [a] } := by
        simp [endRideOp, hconcat, List.getLast?_concat, List.dropLast_concat]
      rw [hop]
      obtain ⟨h1, h2⟩ := ih { s with activeRides := l, ended := s.ended ++ [a] }
      dsimp only at h1 h2
      have hidx : s.activeRides.length - (m + 1) = l.length - m := by
        rw [hconcat, List.length_append, List.length_singleton]
        omega
      constructor
      · rw [h1, hidx, hconcat]
        rw [List.take_append_eq_append_take]
        have hz : l.length - m - l.length = 0 := by omega
        rw [hz]
        simp
      · rw [h2, hidx, hconcat]
        rw [List.drop_append_eq_append_drop]
        have hz : l.length - m - l.length = 0 := by omega
        rw [hz]
        simp [List.reverse_append]

/-- *C8*: an end-ride on an empty Active Ride Pool is a no-op leaving
all shared state unchanged; an end-ride on a non-empty pool pops exactly
one ride (the pool strictly shrinks by one); and after `n` repeated
end-ride operations with no intervening start-ride the pool is the first
`length − n` rides while the rides marked ended are exactly the popped
suffix, each original pool entry popped at most once — so a ride, once
popped, can never be popped a second time. -/
theorem c8_active_ride_pool (s : SimState) :
    (s.activeRides = [] → endRideOp s = s) ∧
    (s.activeRides ≠ [] →
      (endRideOp s).activeRides.length + 1 = s.activeRides.length) ∧
    (∀ n, (endRideIter n s).activeRides = s.activeRides.take (s.activeRides.length - n) ∧
      (endRideIter n s).ended =
        s.ended ++ (s.activeRides.drop (s.activeRides.length - n)).reverse) := by
  refine ⟨endRideOp_nil s, ?_, fun n => endRideIter_spec n s⟩
  intro hne
  rcases List.eq_nil_or_concat s.activeRides with hnil | ⟨l, a, hconcat⟩
  · exact absurd hnil hne
  · have hop : endRideOp s = { s with activeRides := l, ended := s.ended ++ [a] } := by
      simp [endRideOp, hconcat, List.getLast?_concat, List.dropLast_concat]
    rw [hop, hconcat]
    simp

/-- *C8* witness: on a pool of two rides, one end-ride shrinks the pool
by one, two end-rides empty it without touching the registries, and an
end-ride on an empty state changes nothing. -/
theorem c8_active_ride_pool_witness :
    endRideOp (SimState.mk [] [] []) = SimState.mk [] [] [] ∧
    (endRideOp (SimState.mk [] [⟨"a".toList, 1⟩, ⟨"a".toList, 2⟩] [])).activeRides.length + 1
      = (SimState.mk [] [⟨"a".toList, 1⟩, ⟨"a".toList, 2⟩] []).activeRides.length ∧
    (endRideIter 2 (SimState.mk [] [⟨"a".toList, 1⟩, ⟨"a".toList, 2⟩] [])).activeRides
      = [] := by
  refine ⟨(c8_active_ride_pool (SimState.mk [] [] [])).1 rfl,
    (c8_active_ride_pool (SimState.mk [] [⟨"a".toList, 1⟩, ⟨"a".toList, 2⟩] [])).2.1
      (by decide), ?_⟩
  exact ((c8_active_ride_pool
    (SimState.mk [] [⟨"a".toList, 1⟩, ⟨"a".toList, 2⟩] [])).2.2 2).1.trans (by decide)

/-! ## Configuration validation before work starts -/

/-- *C9*: configuration validation happens before any work: invalid
entity counts (≤ 0) make the data loader fail with the count
`ConfigError` — its result carries no thread groups, as the check is
the loader's first statement — and a read fraction outside `[0, 1]`
makes the load generator fail with the read-percentage `ConfigError`
before the warm-up read or any simulation worker is started. -/
theorem c9_config_validation (allCities : List Str) (numUsers numRides numVehicles : ℤ)
    (numThreads : ℕ) (storage : Str → CityRegistry) (ridesOf : Str → List RideRef)
    (readPercentage : ℚ) (cityList : Option (List Str)) :
    (numUsers ≤ 0 ∨ numRides ≤ 0 ∨ numVehicles ≤ 0 →
      run_data_loader allCities numUsers numRides numVehicles numThreads =
        .error ConfigError.invalidCounts) ∧
    (readPercentage < 0 ∨ 1 < readPercentage →
      run_load_generator storage ridesOf readPercentage cityList allCities numThreads =
        .error ConfigError.invalidReadPercentage) := by
  constructor
  · intro h
    rw [run_data_loader, if_pos h]
  · intro h
    rw [run_load_generator, if_pos h]

/-- *C9* witness: `num_users = 0` is rejected by the loader and
`read_percentage = 2` by the generator. -/
theorem c9_config_validation_witness :
    run_data_loader ["x".toList] 0 1 1 2 = .error ConfigError.invalidCounts ∧
    run_load_generator (fun _ => ⟨[1], [1]⟩) (fun _ => []) 2 none ["x".toList] 2 =
      .error ConfigError.invalidReadPercentage := by
  have h := c9_config_validation ["x".toList] 0 1 1 2
    (fun _ => ⟨[1], [1]⟩) (fun _ => []) 2 none
  exact ⟨h.1 (Or.inl (by norm_num)), h.2 (Or.inr (by norm_num))⟩

/-! ## Vehicle metadata argument -/

/-- *C10*: in the Workload Simulator's add-vehicle operation the
metadata argument is the fixed Python builtin `type`, independent of the
vehicle type generated for that vehicle, while the Bulk Loader's
`add_vehicles` passes the vehicle's own generated type to the metadata
generator. -/
theorem c10_metadata_argument (city : Str) (ownerId t t' : ℕ) :
    (sim_add_vehicle_call city ownerId t).vehicle_metadata = MetaArg.pyBuiltinType ∧
    (sim_add_vehicle_call city ownerId t).vehicle_metadata =
      (sim_add_vehicle_call city ownerId t').vehicle_metadata ∧
    (bulk_add_vehicle_call city ownerId t).vehicle_metadata = MetaArg.vehicleType t ∧
    (bulk_add_vehicle_call city ownerId t).vtype = t :=
  ⟨rfl, rfl, rfl, rfl⟩

end Movr
